import Mathlib

/-!
Verification of the credential lifecycle and catalog synchronization pipeline
of the storefront integration service (src/main.py, src/db.py).

The Python code is shallowly embedded: pure computations become Lean
functions, the relational tables become lists of row structures, the remote
platform becomes an explicit response oracle, and the unbounded `while True`
pagination loop becomes a fuel-indexed recursion whose `none` result means
"still running after `fuel` iterations".
-/

namespace Vroom

/-! ### JSON values

Modelled from the spec: `db.py` serializes the `variants`, `images` and
`options` sub-documents with `json.dumps` and re-parses them with
`json.loads`; the `json` module is the Python standard library, not part of
this repository, so its behaviour is modelled here.  Numbers are modelled as
integers and strings are escaped exactly as `json.dumps` does with its
default `ensure_ascii=True` (short escapes for the common control
characters, `\uXXXX` for the rest); code points are restricted to the basic
multilingual plane (no surrogate-pair encoding). -/

inductive Json where
  | null : Json
  | bool (b : Bool) : Json
  | num (n : Int) : Json
  | str (s : String) : Json
  | arr (xs : List Json) : Json
  | obj (kvs : List (String × Json)) : Json

/-- Decimal digit character (`chr(48 + d)`). -/
def decChar (d : Nat) : Char := Char.ofNat (48 + d)

/-- Lowercase hexadecimal digit character, as emitted by `json.dumps`. -/
def hexChar (d : Nat) : Char := Char.ofNat (if d < 10 then 48 + d else 87 + d)

/-- Decimal digits of `n`, least significant first. -/
def toDecRev (n : Nat) : List Char :=
  if h : n < 10 then [decChar n]
  else decChar (n % 10) :: toDecRev (n / 10)
decreasing_by exact Nat.div_lt_self (by omega) (by omega)

/-- Decimal representation of a natural number. -/
def natCharsL (n : Nat) : List Char := (toDecRev n).reverse

/-- Decimal representation of an integer, as `json.dumps` prints it. -/
def intCharsL (n : Int) : List Char :=
  if n < 0 then '-' :: natCharsL (-n).toNat else natCharsL n.toNat

/-- Escape of one character inside a JSON string literal, following
`json.dumps` with `ensure_ascii=True`: `"` and `\` get two-character
escapes, the common control characters get their short escapes, printable
ASCII is emitted verbatim, everything else as `\uXXXX`. -/
def escChar (c : Char) : List Char :=
  if c = '"' then ['\\', '"']
  else if c = '\\' then ['\\', '\\']
  else if c.toNat = 8 then ['\\', 'b']
  else if c.toNat = 9 then ['\\', 't']
  else if c.toNat = 10 then ['\\', 'n']
  else if c.toNat = 12 then ['\\', 'f']
  else if c.toNat = 13 then ['\\', 'r']
  else if 32 ≤ c.toNat ∧ c.toNat ≤ 126 then [c]
  else '\\' :: 'u' :: hexChar (c.toNat / 4096 % 16) :: hexChar (c.toNat / 256 % 16) ::
       hexChar (c.toNat / 16 % 16) :: [hexChar (c.toNat % 16)]

/-- Escape every character of a string body. -/
def escStrChars : List Char → List Char
  | [] => []
  | c :: cs => escChar c ++ escStrChars cs

mutual

/-- Characters of `json.dumps` output for a JSON value (default separators
`", "` and `": "`, insertion order preserved). -/
def dumpsL : Json → List Char
  | .null => ['n', 'u', 'l', 'l']
  | .bool b => if b then ['t', 'r', 'u', 'e'] else ['f', 'a', 'l', 's', 'e']
  | .num n => intCharsL n
  | .str s => '"' :: (escStrChars s.data ++ ['"'])
  | .arr xs => '[' :: dumpsArrL xs
  | .obj kvs => '{' :: dumpsObjL kvs

/-- Array body after the opening bracket. -/
def dumpsArrL : List Json → List Char
  | [] => [']']
  | x :: xs => dumpsL x ++ dumpsArrSepL xs

/-- Remaining array elements, each preceded by `", "`. -/
def dumpsArrSepL : List Json → List Char
  | [] => [']']
  | x :: xs => ',' :: ' ' :: (dumpsL x ++ dumpsArrSepL xs)

/-- Object body after the opening brace. -/
def dumpsObjL : List (String × Json) → List Char
  | [] => ['}']
  | (k, v) :: kvs =>
      '"' :: (escStrChars k.data ++ '"' :: ':' :: ' ' :: (dumpsL v ++ dumpsObjSepL kvs))

/-- Remaining object members, each preceded by `", "`. -/
def dumpsObjSepL : List (String × Json) → List Char
  | [] => ['}']
  | (k, v) :: kvs =>
      ',' :: ' ' :: '"' :: (escStrChars k.data ++ '"' :: ':' :: ' ' :: (dumpsL v ++ dumpsObjSepL kvs))

end

/-- `json.dumps` for the modelled values. -/
def dumps (v : Json) : String := String.mk (dumpsL v)

mutual

/-- Number of JSON nodes; fuel measure for the parser. -/
def jsize : Json → Nat
  | .null | .bool _ | .num _ | .str _ => 1
  | .arr xs => 1 + jsizeA xs
  | .obj kvs => 1 + jsizeO kvs

/-- Node count of an array body. -/
def jsizeA : List Json → Nat
  | [] => 0
  | x :: xs => 1 + jsize x + jsizeA xs

/-- Node count of an object body. -/
def jsizeO : List (String × Json) → Nat
  | [] => 0
  | (_, v) :: kvs => 1 + jsize v + jsizeO kvs

end

/-- A string is representable by the modelled escaper when all its code
points lie in the basic multilingual plane. -/
def wfStr (s : String) : Bool := s.data.all fun c => decide (c.toNat < 65536)

mutual

/-- All strings inside the value are BMP-representable. -/
def wfJson : Json → Bool
  | .null | .bool _ | .num _ => true
  | .str s => wfStr s
  | .arr xs => wfA xs
  | .obj kvs => wfO kvs

/-- Well-formedness of an array body. -/
def wfA : List Json → Bool
  | [] => true
  | x :: xs => wfJson x && wfA xs

/-- Well-formedness of an object body. -/
def wfO : List (String × Json) → Bool
  | [] => true
  | (k, v) :: kvs => wfStr k && wfJson v && wfO kvs

end

/-- Decimal digit test on the character's code point. -/
def isDigitC (c : Char) : Bool := 48 ≤ c.toNat && c.toNat ≤ 57

/-- Parse a run of decimal digits into a natural number. -/
def pNat (cs : List Char) : Option (Nat × List Char) :=
  let ds := cs.takeWhile isDigitC
  if ds.isEmpty then none
  else some (ds.foldl (fun a c => a * 10 + (c.toNat - 48)) 0, cs.dropWhile isDigitC)

/-- Value of one hexadecimal digit character. -/
def hexD (c : Char) : Option Nat :=
  let n := c.toNat
  if 48 ≤ n ∧ n ≤ 57 then some (n - 48)
  else if 97 ≤ n ∧ n ≤ 102 then some (n - 87)
  else if 65 ≤ n ∧ n ≤ 70 then some (n - 55)
  else none

/-- Parse the body of a JSON string literal after the opening quote,
returning the decoded characters and the input after the closing quote. -/
def pStrChars : List Char → Option (List Char × List Char)
  | [] => none
  | c :: rest =>
    if c = '"' then some ([], rest)
    else if c = '\\' then
      match rest with
      | [] => none
      | e :: r2 =>
        if e = '"' then (pStrChars r2).map fun p => ('"' :: p.1, p.2)
        else if e = '\\' then (pStrChars r2).map fun p => ('\\' :: p.1, p.2)
        else if e = '/' then (pStrChars r2).map fun p => ('/' :: p.1, p.2)
        else if e = 'b' then (pStrChars r2).map fun p => (Char.ofNat 8 :: p.1, p.2)
        else if e = 'f' then (pStrChars r2).map fun p => (Char.ofNat 12 :: p.1, p.2)
        else if e = 'n' then (pStrChars r2).map fun p => (Char.ofNat 10 :: p.1, p.2)
        else if e = 'r' then (pStrChars r2).map fun p => (Char.ofNat 13 :: p.1, p.2)
        else if e = 't' then (pStrChars r2).map fun p => (Char.ofNat 9 :: p.1, p.2)
        else if e = 'u' then
          match r2 with
          | h1 :: h2 :: h3 :: h4 :: r3 => do
            let a ← hexD h1
            let b ← hexD h2
            let c2 ← hexD h3
            let d ← hexD h4
            let p ← pStrChars r3
            some (Char.ofNat (((a * 16 + b) * 16 + c2) * 16 + d) :: p.1, p.2)
          | _ => none
        else none
    else (pStrChars rest).map fun p => (c :: p.1, p.2)

/-- Consume a member separator `":"`, tolerating one following space. -/
def pColon : List Char → Option (List Char)
  | ':' :: ' ' :: r => some r
  | ':' :: r => some r
  | _ => none

/-- Drop one leading space if present. -/
def skipOneSpace : List Char → List Char
  | ' ' :: r => r
  | r => r

mutual

/-- Recursive-descent JSON value parser; `fuel` bounds the nesting. -/
def pVal : Nat → List Char → Option (Json × List Char)
  | 0, _ => none
  | f + 1, cs =>
    match cs with
    | [] => none
    | c :: rest =>
      if c = 'n' then
        match rest with
        | 'u' :: 'l' :: 'l' :: r => some (.null, r)
        | _ => none
      else if c = 't' then
        match rest with
        | 'r' :: 'u' :: 'e' :: r => some (.bool true, r)
        | _ => none
      else if c = 'f' then
        match rest with
        | 'a' :: 'l' :: 's' :: 'e' :: r => some (.bool false, r)
        | _ => none
      else if c = '"' then
        (pStrChars rest).map fun p => (.str (String.mk p.1), p.2)
      else if c = '[' then
        if rest.head? = some ']' then some (.arr [], rest.tail)
        else do
          let (x, r2) ← pVal f rest
          let (xs, r3) ← pArrTail f r2
          some (.arr (x :: xs), r3)
      else if c = '{' then
        match rest with
        | '}' :: r => some (.obj [], r)
        | '"' :: r => do
          let (k, r2) ← pStrChars r
          let r3 ← pColon r2
          let (v, r4) ← pVal f r3
          let (kvs, r5) ← pObjTail f r4
          some (.obj ((String.mk k, v) :: kvs), r5)
        | _ => none
      else if c = '-' then
        (pNat rest).map fun p => (.num (-(p.1 : Int)), p.2)
      else if isDigitC c then
        (pNat (c :: rest)).map fun p => (.num (p.1 : Int), p.2)
      else none

/-- Parse the array elements after the first one. -/
def pArrTail : Nat → List Char → Option (List Json × List Char)
  | 0, _ => none
  | f + 1, cs =>
    match cs with
    | ']' :: r => some ([], r)
    | ',' :: r => do
      let (x, r2) ← pVal f (skipOneSpace r)
      let (xs, r3) ← pArrTail f r2
      some (x :: xs, r3)
    | _ => none

/-- Parse the object members after the first one. -/
def pObjTail : Nat → List Char → Option (List (String × Json) × List Char)
  | 0, _ => none
  | f + 1, cs =>
    match cs with
    | '}' :: r => some ([], r)
    | ',' :: r =>
      match skipOneSpace r with
      | '"' :: r2 => do
        let (k, r3) ← pStrChars r2
        let r4 ← pColon r3
        let (v, r5) ← pVal f r4
        let (kvs, r6) ← pObjTail f r5
        some ((String.mk k, v) :: kvs, r6)
      | _ => none
    | _ => none

end

/-- `json.loads` for the modelled values: the whole input must be consumed. -/
def parse (s : String) : Option Json :=
  match pVal (s.length + 2) s.data with
  | some (v, []) => some v
  | _ => none

/-! ### Credential store (`db.py`: `shop_tokens` table)

`store_access_token` runs
`INSERT INTO shop_tokens (shop, access_token) VALUES (...) ON CONFLICT (shop)
DO UPDATE SET access_token = EXCLUDED.access_token, installed_at = NOW()`;
`installed_at` also defaults to `NOW()` on insert.  The table is embedded as
a list of rows with `shop` unique by constraint; `NOW()` is passed in as an
explicit timestamp. -/

structure TokenRow where
  shop : String
  access_token : String
  installed_at : Nat
deriving DecidableEq, Repr

/-- `store_access_token` (db.py lines 50-85): atomic upsert keyed on `shop`. -/
def store_access_token (db : List TokenRow) (shop_domain token : String) (now : Nat) :
    List TokenRow :=
  if db.any fun r => r.shop == shop_domain then
    db.map fun r =>
      if r.shop == shop_domain then { r with access_token := token, installed_at := now } else r
  else db ++ [{ shop := shop_domain, access_token := token, installed_at := now }]

/-- `get_access_token_for_shop` (db.py lines 87-118):
`SELECT access_token FROM shop_tokens WHERE shop = %s LIMIT 1`. -/
def get_access_token_for_shop (db : List TokenRow) (shop_domain : String) : Option String :=
  (db.find? fun r => r.shop == shop_domain).map fun r => r.access_token

/-! ### Product store (`db.py`: sqlite `products` table) -/

/-- The processed-product dictionary built by `ingest_products` /
`background_fetch_products` in main.py and passed to `store_product`.
Values obtained with `dict.get` can be `None`, hence the `Option` fields;
`variants`, `images`, `options` are the structured JSON values. -/
structure ProcessedProduct where
  shop : String
  product_id : Option Int
  title : Option String
  handle : Option String
  created_at : Option String
  updated_at : Option String
  published_at : Option String
  status : Option String
  variants : Json
  images : Json
  options : Json
  tags : Option String

/-- A row of the sqlite `products` table (PRIMARY KEY (shop, product_id)):
`variants`, `images`, `options` are stored as `json.dumps` text. -/
structure ProductRow where
  shop : String
  product_id : String
  title : Option String
  handle : Option String
  created_at : Option String
  updated_at : Option String
  published_at : Option String
  status : Option String
  variants : String
  images : String
  options : String
  tags : Option String

/-- Python `str()` applied to the possibly-missing product id
(`str(product_data['product_id'])` in db.py line 156). -/
def pyStrOfOptInt : Option Int → String
  | none => "None"
  | some n => String.mk (intCharsL n)

/-- The row written by `store_product` for a processed product. -/
def rowOf (p : ProcessedProduct) : ProductRow :=
  { shop := p.shop
    product_id := pyStrOfOptInt p.product_id
    title := p.title
    handle := p.handle
    created_at := p.created_at
    updated_at := p.updated_at
    published_at := p.published_at
    status := p.status
    variants := dumps p.variants
    images := dumps p.images
    options := dumps p.options
    tags := p.tags }

/-- `store_product` (db.py lines 121-172): `INSERT OR REPLACE INTO products`
keyed on `(shop, product_id)` — any row with the same key is deleted and the
new row inserted.  The `shop` argument is only used for logging; the stored
columns come from the product dictionary itself. -/
def store_product (db : List ProductRow) (_shop : String) (product : ProcessedProduct) :
    List ProductRow :=
  let row := rowOf product
  (db.filter fun r => !(r.shop == row.shop && r.product_id == row.product_id)) ++ [row]

/-- The dictionary produced per row by `get_shop_products`, after
`json.loads` of the three serialized columns. -/
structure ReadProduct where
  shop : String
  product_id : String
  title : Option String
  handle : Option String
  created_at : Option String
  updated_at : Option String
  published_at : Option String
  status : Option String
  variants : Json
  images : Json
  options : Json
  tags : Option String

/-- The read-interface record carrying a processed product's own field
values (what a stored product parses back to). -/
def readOf (p : ProcessedProduct) : ReadProduct :=
  { shop := p.shop
    product_id := pyStrOfOptInt p.product_id
    title := p.title
    handle := p.handle
    created_at := p.created_at
    updated_at := p.updated_at
    published_at := p.published_at
    status := p.status
    variants := p.variants
    images := p.images
    options := p.options
    tags := p.tags }

/-- Parse one stored row back into a dictionary; `none` models the
`json.loads` exception escaping `get_shop_products`. -/
def parseRow (r : ProductRow) : Option ReadProduct := do
  let v ← parse r.variants
  let im ← parse r.images
  let op ← parse r.options
  pure { shop := r.shop, product_id := r.product_id, title := r.title, handle := r.handle
         created_at := r.created_at, updated_at := r.updated_at
         published_at := r.published_at, status := r.status
         variants := v, images := im, options := op, tags := r.tags }

/-- Sequential row processing of `get_shop_products`: the first failing row
aborts the whole call. -/
def rowsTraverse : List ProductRow → Option (List ReadProduct)
  | [] => some []
  | r :: rs => do
    let p ← parseRow r
    let ps ← rowsTraverse rs
    pure (p :: ps)

/-- `get_shop_products` (db.py lines 174-198):
`SELECT * FROM products WHERE shop = ?`, then `json.loads` on the
`variants`, `images`, `options` columns of each row. -/
def get_shop_products (db : List ProductRow) (shop : String) : Option (List ReadProduct) :=
  rowsTraverse (db.filter fun r => r.shop == shop)

/-! ### Catalog fetcher (`main.py`: `fetch_all_products`) -/

/-- A raw remote product dictionary, restricted to the keys read by
`ingest_products` / `background_fetch_products`; `dict.get` yields `none`
for missing keys. -/
structure RawProduct where
  id : Option Int := none
  title : Option String := none
  handle : Option String := none
  created_at : Option String := none
  updated_at : Option String := none
  published_at : Option String := none
  status : Option String := none
  variants : Option Json := none
  images : Option Json := none
  options : Option Json := none
  tags : Option String := none

/-- The parts of one page response that `fetch_all_products` inspects:
`status_code`, `response.text`, `data.get("products", [])`, and
`response.headers.get("Link", "")`. -/
structure PageResponse where
  status : Nat
  text : String
  products : List RawProduct
  linkHeader : String

/-- Exceptions raised inside the fetch/exchange code: `HTTPException` with
status and detail, or the `IndexError` from `split("page_info=")[1]` when
the substring is absent. -/
inductive PyError where
  | http (status : Nat) (detail : String)
  | indexError
deriving DecidableEq, Repr

/-- Split a character list at the first occurrence of `sep` (nonempty),
returning the part before it and the part after it. -/
def splitFirst (sep : List Char) : List Char → Option (List Char × List Char)
  | [] => none
  | c :: rest =>
    if sep.isPrefixOf (c :: rest) then some ([], List.drop sep.length (c :: rest))
    else match splitFirst sep rest with
      | some (pre, post) => some (c :: pre, post)
      | none => none

/-- Python's `pat in hay` substring test. -/
def pyContains (hay pat : String) : Bool :=
  if pat = "" then true else (splitFirst pat.data hay.data).isSome

/-- The cursor extraction
`link_header.split("page_info=")[1].split(">")[0]` of main.py line 114:
the slice of the header between the first `page_info=` and the next
occurrence of `page_info=` (Python `split` piece 1), truncated at its first
`>`.  `none` models the `IndexError` when `page_info=` does not occur. -/
def extractPageInfo (link : String) : Option String :=
  match splitFirst "page_info=".data link.data with
  | none => none
  | some (_, post) =>
    let piece := match splitFirst "page_info=".data post with
      | some (pre, _) => pre
      | none => post
    let firstPart := match splitFirst ['>'] piece with
      | some (pre, _) => pre
      | none => piece
    some (String.mk firstPart)

/-- The `rel="next"` marker checked on the Link header. -/
def nextRelTag : String := "rel=\"next\""

/-- One remote catalog endpoint: maps the requested `page_info` cursor
(`none` for the first request) to the response. -/
abbrev PageOracle : Type := Option String → PageResponse

/-- The `while True` pagination loop of `fetch_all_products` (main.py lines
85-114), fuel-indexed: `none` means the loop is still running after `fuel`
iterations; `some (.error e)` a raised exception; `some (.ok (ps, n))`
normal return with the accumulated products and the number of page requests
issued. -/
def fetchAux (oracle : PageOracle) : Nat → Option String → List RawProduct → Nat →
    Option (Except PyError (List RawProduct × Nat))
  | 0, _, _, _ => none
  | f + 1, pageInfo, acc, count =>
    let resp := oracle pageInfo
    if resp.status ≠ 200 then
      some (.error (.http resp.status ("Failed to fetch products: " ++ resp.text)))
    else
      let acc2 := acc ++ resp.products
      if pyContains resp.linkHeader nextRelTag then
        match extractPageInfo resp.linkHeader with
        | none => some (.error .indexError)
        | some pi => fetchAux oracle f (some pi) acc2 (count + 1)
      else some (.ok (acc2, count + 1))

/-- `fetch_all_products` (main.py lines 79-116). -/
def fetch_all_products (oracle : PageOracle) (fuel : Nat) :
    Option (Except PyError (List RawProduct × Nat)) :=
  fetchAux oracle fuel none [] 0

/-- The processed-product dictionary built from a raw product in
`ingest_products` (main.py lines 128-141). -/
def processedOf (shop : String) (p : RawProduct) : ProcessedProduct :=
  { shop := shop
    product_id := p.id
    title := p.title
    handle := p.handle
    created_at := p.created_at
    updated_at := p.updated_at
    published_at := p.published_at
    status := p.status
    variants := p.variants.getD (.arr [])
    images := p.images.getD (.arr [])
    options := p.options.getD (.arr [])
    tags := p.tags }

/-- `ingest_products` (main.py lines 118-149): fetch every page first, then
store each processed product; a fetch error is re-raised before any store
happens, leaving the product table unchanged.  Returns the endpoint result
(`none` = the fetch loop never finished) and the resulting table. -/
def ingest_products (oracle : PageOracle) (shop : String) (db : List ProductRow)
    (fuel : Nat) : Option (Except PyError Nat) × List ProductRow :=
  match fetch_all_products oracle fuel with
  | none => (none, db)
  | some (.error e) => (some (.error e), db)
  | some (.ok (ps, _)) =>
      (some (.ok ps.length),
       ps.foldl (fun d p => store_product d shop (processedOf shop p)) db)

/-! ### Token exchange (`main.py`: `get_access_token`) -/

/-- The parts of the token-endpoint response that `get_access_token`
inspects.  The handler reads only `status_code`, `response.text` and
`data.get('access_token')`; the `scope` field is carried here to show that
it is never consulted. -/
structure ExchangeResponse where
  status : Nat
  text : String
  access_token : Option String
  scope : Option String

/-- `get_access_token` (main.py lines 272-293): raises `HTTPException` on a
non-200 status, otherwise returns `data.get('access_token')` with no scope
verification of any kind. -/
def get_access_token (resp : ExchangeResponse) : Except PyError (Option String) :=
  if resp.status ≠ 200 then
    .error (.http resp.status ("Failed to get access token: " ++ resp.text))
  else .ok resp.access_token

/-! ### OAuth callback parameter validation (`main.py`: `callback`) -/

/-- Python truthiness of an optional query-parameter string
(`None` and `""` are falsy). -/
def pyTruthyStr : Option String → Bool
  | none => false
  | some s => !(s == "")

/-- Lookup in the request's query parameters. -/
def queryGet (params : List (String × String)) (key : String) : Option String :=
  (params.find? fun p => p.1 == key).map fun p => p.2

/-- The complete request validation performed by `callback` (main.py lines
203-212) before the token exchange is attempted:
`if not all([shop, code]): raise HTTPException(400)`.  `true` means the
request is accepted and the handler proceeds to exchange the code — no
signature parameter is ever read, hashed or compared. -/
def callbackProceeds (params : List (String × String)) : Bool :=
  pyTruthyStr (queryGet params "shop") && pyTruthyStr (queryGet params "code")

/-! ### Read query (`main.py`: `random_products`) -/

/-- One entry of the `recommendations` payload (main.py lines 387-393). -/
structure Rec where
  title : Option String
  featuredImage : Json
  price : String
  variantId : Json
  onlineStoreUrl : String

/-- Responses of the `random_products` endpoint: an `{"error": ...}` JSON,
a `{"recommendations": ...}` JSON, or an uncaught exception (500). -/
inductive RpResponse where
  | errJson (msg : String)
  | recs (l : List Rec)
  | crash

/-- Python truthiness of a parsed JSON value. -/
def pyTruthyJson : Json → Bool
  | .null => false
  | .bool b => b
  | .num n => !(n == 0)
  | .str s => !(s == "")
  | .arr xs => !xs.isEmpty
  | .obj kvs => !kvs.isEmpty

/-- Python `x[0]` on a parsed JSON value (valid only on a nonempty list). -/
def jsonIndex0 : Json → Option Json
  | .arr (x :: _) => some x
  | _ => none

/-- Python `d[k]` on a parsed JSON value (valid only on a dict holding `k`). -/
def jsonGetKey (v : Json) (k : String) : Option Json :=
  match v with
  | .obj kvs => (kvs.find? fun p => p.1 == k).map fun p => p.2
  | _ => none

/-- Python `d.get(k, dflt)` on a parsed JSON value (valid only on a dict). -/
def jsonGetKeyD (v : Json) (k : String) (dflt : Json) : Option Json :=
  match v with
  | .obj kvs => some (((kvs.find? fun p => p.1 == k).map fun p => p.2).getD dflt)
  | _ => none

/-- Python `str()`/f-string formatting of a parsed JSON scalar, as used for
the `price` field. -/
def pyFormatJson : Json → String
  | .null => "None"
  | .bool true => "True"
  | .bool false => "False"
  | .num n => String.mk (intCharsL n)
  | .str s => s
  | .arr _ => "[...]"
  | .obj _ => "{...}"

/-- Build one recommendation entry (main.py lines 382-393); `none` models an
uncaught exception (bad subscript / attribute access). -/
def buildRec (p : ReadProduct) : Option Rec := do
  let featured ←
    if pyTruthyJson p.images then do
      let first ← jsonIndex0 p.images
      jsonGetKey first "src"
    else pure (Json.str "https://via.placeholder.com/400")
  let price ←
    if pyTruthyJson p.variants then do
      let first ← jsonIndex0 p.variants
      let pr ← jsonGetKeyD first "price" (.str "0.00")
      pure ("$" ++ pyFormatJson pr)
    else pure "$0.00"
  let variantId ←
    if pyTruthyJson p.variants then do
      let first ← jsonIndex0 p.variants
      jsonGetKeyD first "id" (.str "")
    else pure (Json.str "")
  pure { title := p.title
         featuredImage := featured
         price := price
         variantId := variantId
         onlineStoreUrl := "/products/" ++ (p.handle.getD "None") }

/-- Build all recommendation entries for the sampled products. -/
def buildRecs : List ReadProduct → Option (List Rec)
  | [] => some []
  | p :: ps => do
    let r ← buildRec p
    let rs ← buildRecs ps
    pure (r :: rs)

/-- The tail of `random_products` after the product list is settled
(main.py lines 374-395): empty list → empty recommendations; otherwise
sample `min 4 n` products with the sampler standing in for `random.sample`
and build the payload. -/
def rpFinish (sample : List ReadProduct → Nat → List ReadProduct)
    (products : List ReadProduct) : RpResponse :=
  if products.isEmpty then .recs []
  else
    match buildRecs (sample products (min 4 products.length)) with
    | some rs => .recs rs
    | none => .crash

/-- `random_products` (main.py lines 347-395).  `sample` stands in for
`random.sample`.  `none` models the handler never answering because the
background-free inline refresh hit the non-terminating fetch loop. -/
def random_products (tokens : List TokenRow) (db : List ProductRow)
    (oracle : PageOracle) (sample : List ReadProduct → Nat → List ReadProduct)
    (shopParam : Option String) (fuel : Nat) : Option RpResponse :=
  if !(pyTruthyStr shopParam) then some (.errJson "Missing shop parameter")
  else
    let shop := shopParam.getD ""
    match get_shop_products db shop with
    | none => some (.errJson "Failed to fetch products from database")
    | some products =>
      if products.isEmpty then
        match get_access_token_for_shop tokens shop with
        | none => some (.errJson "Shop not authorized")
        | some _tok =>
          match ingest_products oracle shop db fuel with
          | (none, _) => none
          | (some (.error _), _) => some (.errJson "Failed to refresh products")
          | (some (.ok _), db2) =>
            match get_shop_products db2 shop with
            | none => some (.errJson "Failed to refresh products")
            | some products2 => some (rpFinish sample products2)
      else some (rpFinish sample products)

/-! ### Concrete fixtures used by the witnesses and counterexamples -/

/-- A Shopify-style Link header advertising a next page at `cursor`. -/
def linkNext (cursor : String) : String :=
  "<https://demo.myshopify.com/admin/api/2024-01/products.json?limit=250&page_info="
    ++ cursor ++ ">; rel=\"next\""

/-- A remote whose every response advertises the same next-page cursor. -/
def cyclingOracle : PageOracle := fun _ => ⟨200, "", [], linkNext "abc"⟩

/-- A raw product carrying just an id. -/
def mkRawId (i : Nat) : RawProduct := { id := some (Int.ofNat i) }

/-- `n` raw products with consecutive ids starting at `start`. -/
def pageOf (start n : Nat) : List RawProduct := (List.range n).map fun i => mkRawId (start + i)

/-- A remote serving three pages of 250, 250 and 10 products with correct
Link headers (`rel="next"` on the first two, none on the third). -/
def oracle3 : PageOracle
  | none => ⟨200, "", pageOf 0 250, linkNext "c2"⟩
  | some "c2" => ⟨200, "", pageOf 250 250, linkNext "c3"⟩
  | some "c3" => ⟨200, "", pageOf 500 10, ""⟩
  | some _ => ⟨404, "Not Found", [], ""⟩

/-- A remote that answers every page request with a 500. -/
def oracle500 : PageOracle := fun _ => ⟨500, "Server Error", [], ""⟩

/-- A remote that answers the first page request with success and zero
products. -/
def oracleEmptyOk : PageOracle := fun _ => ⟨200, "", [], ""⟩

/-- One stored credential row. -/
def tokens1 : List TokenRow :=
  [{ shop := "s1.myshopify.com", access_token := "shpat_abc", installed_at := 0 }]

/-- A deterministic stand-in for `random.sample`. -/
def sampleTake : List ReadProduct → Nat → List ReadProduct := fun l n => l.take n

/-- Key match on the (shop, product_id) primary key of a processed product. -/
def sameKey (p : ProcessedProduct) : ProductRow → Bool := fun r =>
  r.shop == p.shop && r.product_id == pyStrOfOptInt p.product_id

/-- A concrete processed product titled "A". -/
def prodA : ProcessedProduct :=
  { shop := "s1.myshopify.com", product_id := some 7, title := some "A"
    handle := some "prod-7", created_at := none, updated_at := none, published_at := none
    status := some "active", variants := .arr [], images := .arr [], options := .arr []
    tags := none }

/-- The same product as `prodA` but retitled "B" with different fields. -/
def prodB : ProcessedProduct :=
  { shop := "s1.myshopify.com", product_id := some 7, title := some "B"
    handle := some "prod-7b", created_at := some "2024-01-01", updated_at := none
    published_at := none, status := some "draft"
    variants := .arr [.obj [("id", .num 11), ("price", .str "10.00")]]
    images := .arr [], options := .arr [.obj [("name", .str "Size")]], tags := some "x,y" }

/-! ## Theorems -/

/-- C1: the spec requires the callback's request-authenticity check to
accept exactly the parameter sets carrying a valid HMAC-SHA256 platform
signature and to reject any single-parameter or single-signature-byte
mutation.  The code performs no signature verification at all: `callback`
only checks that `shop` and `code` are present, so it proceeds for every
signature value — in particular for a mutated one — and its acceptance is
entirely independent of the `hmac` parameter. -/
theorem callback_accepts_any_signature :
    (∀ v : String,
      callbackProceeds [("shop", "demo.myshopify.com"), ("code", "authcode123"), ("hmac", v)]
        = true)
    ∧ ∀ (ps : List (String × String)) (v w : String),
        callbackProceeds (ps ++ [("hmac", v)]) = callbackProceeds (ps ++ [("hmac", w)]) := by
  constructor
  · intro v; rfl
  · intro ps v w
    unfold callbackProceeds queryGet
    rw [List.find?_append, List.find?_append]
    simp [List.find?]

/-- C4: the spec requires the token exchange to fail with a `ScopeError`
when the granted scopes do not superset {read_products, write_products}.
The code never inspects the `scope` field of the exchange response: on any
200 response it returns `data.get('access_token')` unconditionally — here
shown for a grant of only `read_products` — and its result is invariant
under arbitrary changes of the granted scope. -/
theorem token_exchange_ignores_scope :
    (get_access_token
        { status := 200, text := "", access_token := some "shpat_abc"
          scope := some "read_products" } = .ok (some "shpat_abc"))
    ∧ ∀ (resp : ExchangeResponse) (sc : Option String),
        get_access_token { resp with scope := sc } = get_access_token { resp with scope := none } := by
  constructor
  · rfl
  · intro resp sc; rfl

/-- C2: the spec requires the pagination loop of `fetch_all_products` to
terminate on every response sequence, via an iteration cap or cursor-repeat
detection.  The code has neither: against a remote that always returns a
`rel="next"` link with the same already-seen cursor, the loop is still
running after any number of iterations, from every starting state — it
never terminates, with or without an error. -/
theorem fetch_cycle_never_terminates :
    ∀ (fuel : Nat) (pageInfo : Option String) (acc : List RawProduct) (count : Nat),
      fetchAux cyclingOracle fuel pageInfo acc count = none := by
  intro fuel
  induction fuel with
  | zero => intro pi acc cnt; rfl
  | succ f ih =>
    intro pi acc cnt
    have h : fetchAux cyclingOracle (f + 1) pi acc cnt
        = fetchAux cyclingOracle f (some "abc") (acc ++ []) (cnt + 1) := rfl
    rw [h]
    exact ih _ _ _

set_option maxRecDepth 40000 in
/-- C5: against a remote returning three pages of 250, 250 and 10 products
with correct Link headers, `fetch_all_products` returns exactly the 510
products concatenated in page order and issues exactly 3 page requests. -/
theorem fetch_three_pages_510 :
    fetch_all_products oracle3 10
      = some (.ok (pageOf 0 250 ++ pageOf 250 250 ++ pageOf 500 10, 3))
    ∧ (pageOf 0 250 ++ pageOf 250 250 ++ pageOf 500 10).length = 510 := by
  constructor
  · rfl
  · rfl

/-- Any `HTTPException` escaping the fetch loop carries the status of some
page response together with its body text, and that status is not 200. -/
theorem fetchAux_error_http :
    ∀ (fuel : Nat) (oracle : PageOracle) (pi : Option String) (acc : List RawProduct)
      (cnt s : Nat) (b : String),
      fetchAux oracle fuel pi acc cnt = some (.error (.http s b)) →
      s ≠ 200 ∧ ∃ q, (oracle q).status = s
        ∧ b = "Failed to fetch products: " ++ (oracle q).text := by
  intro fuel
  induction fuel with
  | zero => intro oracle pi acc cnt s b h; exact absurd h (by simp [fetchAux])
  | succ f ih =>
    intro oracle pi acc cnt s b h
    rw [fetchAux] at h
    split at h
    · rename_i hs
      injection h with h'
      injection h' with h''
      injection h'' with h1 h2
      exact ⟨h1 ▸ hs, pi, h1, h2.symm⟩
    · rename_i hs
      split at h
      · split at h
        · exact absurd (Option.some.inj h) (by intro hx; injection hx with hx'; injection hx')
        · exact ih oracle _ _ _ s b h
      · exact absurd (Option.some.inj h) (by intro hx; injection hx)

/-- C6: when some page request of a sync pass returns a non-success status,
the fetch raises an error carrying that response's status and body text,
`ingest_products` propagates it without storing anything — the accumulated
pages are abandoned and the tenant's cached catalog rows are unchanged. -/
theorem fetch_error_aborts_ingest (oracle : PageOracle) (shop : String)
    (db : List ProductRow) (fuel s : Nat) (b : String)
    (h : fetch_all_products oracle fuel = some (.error (.http s b))) :
    ingest_products oracle shop db fuel = (some (.error (.http s b)), db)
    ∧ s ≠ 200
    ∧ ∃ q, (oracle q).status = s ∧ b = "Failed to fetch products: " ++ (oracle q).text := by
  have hsrc := fetchAux_error_http fuel oracle none [] 0 s b h
  refine ⟨?_, hsrc.1, hsrc.2⟩
  unfold ingest_products
  rw [h]

/-- Witness for C6 at a concrete failing remote: the first page answers 500
with body "Server Error"; the pass aborts with that status and body and the
product table (empty here) is untouched. -/
theorem fetch_error_aborts_ingest_witness :
    ingest_products oracle500 "s1.myshopify.com" [] 3
      = (some (.error (.http 500 "Failed to fetch products: Server Error")), [])
    ∧ (500 : Nat) ≠ 200 :=
  ⟨(fetch_error_aborts_ingest oracle500 "s1.myshopify.com" [] 3 500
      "Failed to fetch products: Server Error" rfl).1,
   (fetch_error_aborts_ingest oracle500 "s1.myshopify.com" [] 3 500
      "Failed to fetch products: Server Error" rfl).2.1⟩

/-- C9: when the tenant already has a credential row, a further successful
`store_access_token` takes the `ON CONFLICT` update branch, which writes
`installed_at = NOW()` next to the new token: after the upsert at time
`now`, every row of that tenant holds the new token and the new timestamp —
`installed_at` is not preserved from the first install. -/
theorem upsert_resets_installed_at (db : List TokenRow) (shop tok : String) (now : Nat)
    (hexists : db.any (fun r => r.shop == shop) = true) :
    ∀ r ∈ store_access_token db shop tok now, (r.shop == shop) = true →
      r.installed_at = now ∧ r.access_token = tok := by
  intro r hr hshop
  unfold store_access_token at hr
  rw [if_pos hexists] at hr
  obtain ⟨r0, _, hr0⟩ := List.mem_map.mp hr
  by_cases h0 : (r0.shop == shop) = true
  · rw [if_pos h0] at hr0
    subst hr0
    exact ⟨rfl, rfl⟩
  · rw [if_neg h0] at hr0
    subst hr0
    exact absurd hshop h0

/-- After one upsert for `shop`, a lookup for `shop` returns exactly the
token just stored. -/
theorem get_after_store (db : List TokenRow) (shop tok : String) (now : Nat) :
    get_access_token_for_shop (store_access_token db shop tok now) shop = some tok := by
  unfold store_access_token get_access_token_for_shop
  by_cases hany : (db.any fun r => r.shop == shop) = true
  · rw [if_pos hany]
    have hcomp : ((fun r : TokenRow => r.shop == shop) ∘ fun r =>
        if (r.shop == shop) = true
        then { r with access_token := tok, installed_at := now } else r)
        = fun r : TokenRow => r.shop == shop := by
      funext r
      by_cases h : r.shop = shop <;> simp [h]
    rw [List.find?_map, hcomp]
    obtain ⟨x, hx, hpx⟩ := List.any_eq_true.mp hany
    have hsome : (db.find? fun r : TokenRow => r.shop == shop).isSome :=
      List.find?_isSome.mpr ⟨x, hx, hpx⟩
    obtain ⟨r0, hr0⟩ := Option.isSome_iff_exists.mp hsome
    have hp0 := List.find?_some hr0
    have he0 : r0.shop = shop := by simpa using hp0
    rw [hr0]
    simp [he0]
  · rw [if_neg hany]
    have hnone : (db.find? fun r => r.shop == shop) = none := by
      rw [List.find?_eq_none]
      intro x hx hpx
      exact hany (List.any_eq_true.mpr ⟨x, hx, hpx⟩)
    rw [List.find?_append, hnone]
    simp [List.find?]

/-- C3: for any prior table state and any nonempty sequence of successful
`store_access_token` calls for tenant `shop`, a subsequent
`get_access_token_for_shop shop` returns exactly the token of the most
recent store — the `ON CONFLICT (shop)` upsert is last-write-wins, keeping
at most one credential row per tenant. -/
theorem token_last_write_wins (shop : String) :
    ∀ (stores : List (String × Nat)) (db : List TokenRow) (h : stores ≠ []),
      get_access_token_for_shop
        (stores.foldl (fun d p => store_access_token d shop p.1 p.2) db) shop
        = some (stores.getLast h).1 := by
  intro stores
  induction stores with
  | nil => intro db h; exact absurd rfl h
  | cons a rest ih =>
    intro db h
    cases rest with
    | nil => simpa using get_after_store db shop a.1 a.2
    | cons b rs =>
      rw [List.foldl_cons, List.getLast_cons (by simp)]
      exact ih (store_access_token db shop a.1 a.2) (by simp)

/-- Witness for C3: three successive stores of tokens "t1", "t2", "t3" for
one tenant leave exactly "t3" retrievable. -/
theorem token_last_write_wins_witness :
    get_access_token_for_shop
      ([(("t1" : String), (1 : Nat)), ("t2", 2), ("t3", 3)].foldl
        (fun d p => store_access_token d "s1.myshopify.com" p.1 p.2) [])
      "s1.myshopify.com" = some "t3" :=
  token_last_write_wins "s1.myshopify.com" [("t1", 1), ("t2", 2), ("t3", 3)] [] (by decide)

/-- C7: storing twice under the same `(shop, product_id)` key with raw
products differing in title leaves exactly one row under that key, and that
row is entirely the row of the second call — `INSERT OR REPLACE` deletes the
conflicting row and inserts the new one, with no field merge. -/
theorem store_product_full_replace (db : List ProductRow) (shop : String)
    (p1 p2 : ProcessedProduct)
    (hshop : p1.shop = p2.shop)
    (hid : pyStrOfOptInt p1.product_id = pyStrOfOptInt p2.product_id)
    (_htitle : p1.title ≠ p2.title) :
    (store_product (store_product db shop p1) shop p2).filter (sameKey p2) = [rowOf p2] := by
  have hk1 : (fun r : ProductRow =>
      !(r.shop == (rowOf p1).shop && r.product_id == (rowOf p1).product_id))
        = fun r => !sameKey p2 r := by
    funext r
    simp only [sameKey, rowOf, hshop, hid]
  have hk2 : (fun r : ProductRow =>
      !(r.shop == (rowOf p2).shop && r.product_id == (rowOf p2).product_id))
        = fun r => !sameKey p2 r := by
    funext r
    simp only [sameKey, rowOf]
  have hself : sameKey p2 (rowOf p2) = true := by
    simp [sameKey, rowOf]
  show ((((db.filter fun r =>
      !(r.shop == (rowOf p1).shop && r.product_id == (rowOf p1).product_id)) ++ [rowOf p1]).filter
        fun r => !(r.shop == (rowOf p2).shop && r.product_id == (rowOf p2).product_id))
          ++ [rowOf p2]).filter (sameKey p2) = [rowOf p2]
  rw [hk1, hk2, List.filter_append, List.filter_filter]
  have hzero : ∀ l : List ProductRow,
      (l.filter fun a => sameKey p2 a && !sameKey p2 a) = [] := by
    intro l
    apply List.filter_eq_nil_iff.mpr
    intro a _
    cases h : sameKey p2 a <;> simp [h]
  rw [hzero]
  simp [hself]

/-- Witness for C7: after storing `prodA` then `prodB` (same key, different
titles) into an empty table, the key holds exactly the row of `prodB`. -/
theorem store_product_full_replace_witness :
    (store_product (store_product [] "s1.myshopify.com" prodA) "s1.myshopify.com" prodB).filter
      (sameKey prodB) = [rowOf prodB] :=
  store_product_full_replace [] "s1.myshopify.com" prodA prodB rfl rfl (by decide)

/-- Witness for C9: a tenant installed at time 5 with token "t0" is
re-upserted at time 9 with token "t1"; the stored row now carries
timestamp 9 and token "t1". -/
theorem upsert_resets_installed_at_witness :
    ∃ r ∈ store_access_token
        [{ shop := "s1.myshopify.com", access_token := "t0", installed_at := 5 }]
        "s1.myshopify.com" "t1" 9,
      r.installed_at = 9 ∧ r.access_token = "t1" := by
  refine ⟨{ shop := "s1.myshopify.com", access_token := "t1", installed_at := 9 }, ?_, ?_⟩
  · decide
  · exact upsert_resets_installed_at
      [{ shop := "s1.myshopify.com", access_token := "t0", installed_at := 5 }]
      "s1.myshopify.com" "t1" 9 (by decide)
      { shop := "s1.myshopify.com", access_token := "t1", installed_at := 9 }
      (by decide) (by decide)

/-- C8 counterexample: a tenant with a stored credential and zero synced
product rows does not always get an empty recommendation list — because
`random_products` reacts to an empty local catalog by synchronously
re-ingesting from the remote, a failing remote (here: every page request
answers 500) makes the endpoint return the error JSON
`{"error": "Failed to refresh products"}` instead. -/
theorem random_products_error_on_failed_refresh :
    get_access_token_for_shop tokens1 "s1.myshopify.com" = some "shpat_abc"
    ∧ ([] : List ProductRow).filter (fun r => r.shop == "s1.myshopify.com") = []
    ∧ random_products tokens1 [] oracle500 sampleTake (some "s1.myshopify.com") 3
        = some (.errJson "Failed to refresh products") :=
  ⟨rfl, rfl, rfl⟩

/-- C8 (amended): for a tenant with a stored credential and zero synced
product rows, `random_products` returns the empty recommendation list as a
normal result provided the automatic refresh it performs against the remote
succeeds and yields zero products; when that refresh fails, an error
response is returned instead (see the counterexample). -/
theorem random_products_empty_catalog (tokens : List TokenRow) (db : List ProductRow)
    (oracle : PageOracle) (sample : List ReadProduct → Nat → List ReadProduct)
    (shop tok : String) (fuel k : Nat)
    (hshop : shop ≠ "")
    (hnorows : db.filter (fun r => r.shop == shop) = [])
    (htok : get_access_token_for_shop tokens shop = some tok)
    (hfetch : fetch_all_products oracle fuel = some (.ok ([], k))) :
    random_products tokens db oracle sample (some shop) fuel = some (.recs []) := by
  have htruthy : pyTruthyStr (some shop) = true := by
    simp [pyTruthyStr, hshop]
  have hget : get_shop_products db shop = some [] := by
    unfold get_shop_products
    rw [hnorows]
    rfl
  unfold random_products
  rw [htruthy]
  simp only [Bool.not_true, Bool.false_eq_true, if_false]
  rw [show (some shop).getD "" = shop from rfl, hget]
  simp only [List.isEmpty_nil, if_true, htok]
  unfold ingest_products
  rw [hfetch]
  simp only [List.foldl_nil]
  rw [hget]
  rfl

/-- Witness for the amended C8: credential present, empty local table,
remote answering success with zero products — the endpoint returns
`{"recommendations": []}`. -/
theorem random_products_empty_catalog_witness :
    random_products tokens1 [] oracleEmptyOk sampleTake (some "s1.myshopify.com") 2
      = some (.recs []) :=
  random_products_empty_catalog tokens1 [] oracleEmptyOk sampleTake
    "s1.myshopify.com" "shpat_abc" 2 1 (by decide) rfl rfl rfl

/-! ### Round-trip of the modelled `json.dumps` / `json.loads` (towards C10) -/

/-- `Char.ofNat` inverts `Char.toNat` on pre-surrogate code points. -/
theorem toNat_ofNat_bmp (n : Nat) (h : n < 55296) : (Char.ofNat n).toNat = n := by
  rw [Char.ofNat, dif_pos (Or.inl h)]
  rfl

/-- Code point of a decimal digit character. -/
theorem toNat_decChar (d : Nat) (h : d < 10) : (decChar d).toNat = 48 + d :=
  toNat_ofNat_bmp (48 + d) (by omega)

/-- Decimal digit characters pass the digit test. -/
theorem isDigitC_decChar (d : Nat) (h : d < 10) : isDigitC (decChar d) = true := by
  simp only [isDigitC, toNat_decChar d h]
  simp
  omega

/-- The digit test pins the code point into the digit range. -/
theorem isDigitC_toNat (c : Char) (h : isDigitC c = true) :
    48 ≤ c.toNat ∧ c.toNat ≤ 57 := by
  simpa [isDigitC] using h

/-- `toDecRev` never returns an empty digit list. -/
theorem toDecRev_ne_nil (n : Nat) : toDecRev n ≠ [] := by
  unfold toDecRev
  split <;> simp

/-- Every character produced by `toDecRev` is a decimal digit. -/
theorem toDecRev_all_digits (n : Nat) : ∀ c ∈ toDecRev n, isDigitC c = true := by
  induction n using Nat.strong_induction_on with
  | _ n ih =>
    unfold toDecRev
    split
    · intro c hc
      rw [List.mem_singleton] at hc
      subst hc
      exact isDigitC_decChar n (by omega)
    · rename_i hn
      intro c hc
      rw [List.mem_cons] at hc
      rcases hc with hc | hc
      · subst hc
        exact isDigitC_decChar (n % 10) (by omega)
      · exact ih (n / 10) (Nat.div_lt_self (by omega) (by omega)) c hc

/-- Folding the digit-accumulator over the digits of `n` (most significant
first) recovers `n` on top of the shifted accumulator. -/
theorem foldl_toDecRev (n : Nat) : ∀ a : Nat,
    ((toDecRev n).reverse).foldl (fun a c => a * 10 + (c.toNat - 48)) a
      = a * 10 ^ (toDecRev n).length + n := by
  induction n using Nat.strong_induction_on with
  | _ n ih =>
    intro a
    unfold toDecRev
    split
    · rename_i hn
      simp [List.foldl, toNat_decChar n (by omega)]
    · rename_i hn
      rw [List.reverse_cons, List.foldl_append]
      rw [ih (n / 10) (Nat.div_lt_self (by omega) (by omega)) a]
      simp only [List.foldl_cons, List.foldl_nil, List.length_cons]
      rw [toNat_decChar (n % 10) (by omega)]
      have hpow : 10 ^ ((toDecRev (n / 10)).length + 1)
          = 10 ^ (toDecRev (n / 10)).length * 10 := by
        rw [Nat.pow_succ]
      rw [hpow]
      have := Nat.div_add_mod n 10
      ring_nf
      omega

/-- A run of characters satisfying `p` followed by a non-`p` boundary is
exactly what `takeWhile`/`dropWhile` split off. -/
theorem takeWhile_dropWhile_all (p : Char → Bool) :
    ∀ (l rest : List Char), (∀ c ∈ l, p c = true) →
      (∀ c, rest.head? = some c → p c = false) →
      (l ++ rest).takeWhile p = l ∧ (l ++ rest).dropWhile p = rest := by
  intro l
  induction l with
  | nil =>
    intro rest _ hrest
    cases rest with
    | nil => exact ⟨rfl, rfl⟩
    | cons c r =>
      have hc := hrest c rfl
      simp [List.takeWhile, List.dropWhile, hc]
  | cons c l ih =>
    intro rest hall hrest
    have hc : p c = true := hall c (List.mem_cons_self c l)
    have hrec := ih rest (fun x hx => hall x (List.mem_cons_of_mem c hx)) hrest
    simp [List.takeWhile, List.dropWhile, hc, hrec.1, hrec.2]

/-- `pNat` inverts the decimal printer, for any non-digit continuation. -/
theorem pNat_natCharsL (n : Nat) (rest : List Char)
    (hrest : ∀ c, rest.head? = some c → isDigitC c = false) :
    pNat (natCharsL n ++ rest) = some (n, rest) := by
  have hall : ∀ c ∈ natCharsL n, isDigitC c = true := by
    intro c hc
    exact toDecRev_all_digits n c (List.mem_reverse.mp hc)
  have hsplit := takeWhile_dropWhile_all isDigitC (natCharsL n) rest hall hrest
  unfold pNat
  rw [hsplit.1, hsplit.2]
  have hne : (natCharsL n).isEmpty = false := by
    unfold natCharsL
    cases h : toDecRev n with
    | nil => exact absurd h (toDecRev_ne_nil n)
    | cons a l => simp [h]
  simp only [hne, Bool.false_eq_true, if_false]
  unfold natCharsL
  rw [foldl_toDecRev n 0]
  simp

/-- `hexD` inverts `hexChar` on hex digits. -/
theorem hexD_hexChar (k : Nat) (h : k < 16) : hexD (hexChar k) = some k := by
  interval_cases k <;> decide

/-- `pStrChars` decodes the escaped body of a string literal back to the
original characters, leaving the continuation after the closing quote. -/
theorem pStrChars_escape : ∀ (cs rest : List Char), (∀ c ∈ cs, c.toNat < 65536) →
    pStrChars (escStrChars cs ++ '"' :: rest) = some (cs, rest) := by
  intro cs
  induction cs with
  | nil =>
    intro rest _
    show pStrChars ('"' :: rest) = some ([], rest)
    rw [pStrChars.eq_def]
    simp
  | cons c cs ih =>
    intro rest hwf
    have hc : c.toNat < 65536 := hwf c (List.mem_cons_self c cs)
    have hcs : ∀ x ∈ cs, x.toNat < 65536 := fun x hx => hwf x (List.mem_cons_of_mem c hx)
    show pStrChars ((escChar c ++ escStrChars cs) ++ '"' :: rest) = some (c :: cs, rest)
    rw [List.append_assoc]
    unfold escChar
    split_ifs with h1 h2 h3 h4 h5 h6 h7 h8
    · subst h1
      rw [List.cons_append, List.cons_append, pStrChars.eq_def]
      simp +decide [ih rest hcs]
    · subst h2
      rw [List.cons_append, List.cons_append, pStrChars.eq_def]
      simp +decide [ih rest hcs]
    · have hceq : Char.ofNat 8 = c := by rw [← h3, Char.ofNat_toNat]
      rw [List.cons_append, List.cons_append, pStrChars.eq_def]
      simp +decide [ih rest hcs]
      exact hceq
    · have hceq : Char.ofNat 9 = c := by rw [← h4, Char.ofNat_toNat]
      rw [List.cons_append, List.cons_append, pStrChars.eq_def]
      simp +decide [ih rest hcs]
      exact hceq
    · have hceq : Char.ofNat 10 = c := by rw [← h5, Char.ofNat_toNat]
      rw [List.cons_append, List.cons_append, pStrChars.eq_def]
      simp +decide [ih rest hcs]
      exact hceq
    · have hceq : Char.ofNat 12 = c := by rw [← h6, Char.ofNat_toNat]
      rw [List.cons_append, List.cons_append, pStrChars.eq_def]
      simp +decide [ih rest hcs]
      exact hceq
    · have hceq : Char.ofNat 13 = c := by rw [← h7, Char.ofNat_toNat]
      rw [List.cons_append, List.cons_append, pStrChars.eq_def]
      simp +decide [ih rest hcs]
      exact hceq
    · rw [List.singleton_append, pStrChars.eq_def]
      simp only [if_neg h1, if_neg h2]
      rw [ih rest hcs]
      rfl
    · have e3 := hexD_hexChar (c.toNat / 4096 % 16) (by omega)
      have e2 := hexD_hexChar (c.toNat / 256 % 16) (by omega)
      have e1 := hexD_hexChar (c.toNat / 16 % 16) (by omega)
      have e0 := hexD_hexChar (c.toNat % 16) (by omega)
      have hre : ((c.toNat / 4096 % 16 * 16 + c.toNat / 256 % 16) * 16
          + c.toNat / 16 % 16) * 16 + c.toNat % 16 = c.toNat := by omega
      rw [List.cons_append, List.cons_append, pStrChars.eq_def]
      simp +decide [e3, e2, e1, e0, ih rest hcs, hre, Char.ofNat_toNat]

/-- Rebuilding a string from its character data is the identity. -/
theorem mk_data (s : String) : String.mk s.data = s := by
  cases s
  rfl

/-- The decimal printout of a natural number starts with a digit. -/
theorem natCharsL_head (n : Nat) : ∃ c cs, natCharsL n = c :: cs ∧ isDigitC c = true := by
  cases h : natCharsL n with
  | nil =>
    exfalso
    apply toDecRev_ne_nil n
    have := congrArg List.reverse h
    simpa [natCharsL] using this
  | cons c cs =>
    refine ⟨c, cs, rfl, ?_⟩
    have hmem : c ∈ toDecRev n := by
      rw [← List.mem_reverse]
      show c ∈ natCharsL n
      rw [h]
      exact List.mem_cons_self c cs
    exact toDecRev_all_digits n c hmem

/-- The serialized form of a JSON value never starts with `]`. -/
theorem dumpsL_head_ne (v : Json) : ∃ c cs, dumpsL v = c :: cs ∧ ¬c = ']' := by
  cases v with
  | null => exact ⟨'n', _, by rw [dumpsL.eq_def], by decide⟩
  | bool b =>
    cases b with
    | true => exact ⟨'t', ['r', 'u', 'e'], by rw [dumpsL.eq_def]; rfl, by decide⟩
    | false => exact ⟨'f', ['a', 'l', 's', 'e'], by rw [dumpsL.eq_def]; rfl, by decide⟩
  | num n =>
    rw [dumpsL.eq_def]
    show ∃ c cs, intCharsL n = c :: cs ∧ ¬c = ']'
    unfold intCharsL
    split
    · exact ⟨'-', _, rfl, by decide⟩
    · obtain ⟨c, cs, hc, hd⟩ := natCharsL_head n.toNat
      refine ⟨c, cs, hc, ?_⟩
      intro he
      subst he
      exact absurd (isDigitC_toNat _ hd) (by decide)
  | str s => exact ⟨'"', _, by rw [dumpsL.eq_def], by decide⟩
  | arr xs => exact ⟨'[', _, by rw [dumpsL.eq_def], by decide⟩
  | obj kvs => exact ⟨'{', _, by rw [dumpsL.eq_def], by decide⟩

/-- Unfolding equation of `jsize` on an array. -/
theorem jsize_arr (xs : List Json) : jsize (.arr xs) = 1 + jsizeA xs := by rw [jsize.eq_def]

/-- Unfolding equation of `jsize` on an object. -/
theorem jsize_obj (kvs : List (String × Json)) : jsize (.obj kvs) = 1 + jsizeO kvs := by
  rw [jsize.eq_def]

/-- Unfolding equation of `jsizeA` on nil. -/
theorem jsizeA_nil : jsizeA [] = 0 := by rw [jsizeA.eq_def]

/-- Unfolding equation of `jsizeA` on cons. -/
theorem jsizeA_cons (x : Json) (xs : List Json) :
    jsizeA (x :: xs) = 1 + jsize x + jsizeA xs := by rw [jsizeA.eq_def]

/-- Unfolding equation of `jsizeO` on nil. -/
theorem jsizeO_nil : jsizeO [] = 0 := by rw [jsizeO.eq_def]

/-- Unfolding equation of `jsizeO` on cons. -/
theorem jsizeO_cons (k : String) (v : Json) (kvs : List (String × Json)) :
    jsizeO ((k, v) :: kvs) = 1 + jsize v + jsizeO kvs := by rw [jsizeO.eq_def]

/-- Unfolding equation of `dumpsL` on an array. -/
theorem dumpsL_arr (xs : List Json) : dumpsL (.arr xs) = '[' :: dumpsArrL xs := by
  rw [dumpsL.eq_def]

/-- Unfolding equation of `dumpsL` on an object. -/
theorem dumpsL_obj (kvs : List (String × Json)) : dumpsL (.obj kvs) = '{' :: dumpsObjL kvs := by
  rw [dumpsL.eq_def]

/-- Unfolding equation of `dumpsL` on a number. -/
theorem dumpsL_num (n : Int) : dumpsL (.num n) = intCharsL n := by rw [dumpsL.eq_def]

/-- Unfolding equation of `dumpsL` on a string. -/
theorem dumpsL_str (s : String) :
    dumpsL (.str s) = '"' :: (escStrChars s.data ++ ['"']) := by rw [dumpsL.eq_def]

/-- Unfolding equation of `dumpsArrL` on nil. -/
theorem dumpsArrL_nil : dumpsArrL [] = [']'] := by rw [dumpsArrL.eq_def]

/-- Unfolding equation of `dumpsArrL` on cons. -/
theorem dumpsArrL_cons (x : Json) (xs : List Json) :
    dumpsArrL (x :: xs) = dumpsL x ++ dumpsArrSepL xs := by rw [dumpsArrL.eq_def]

/-- Unfolding equation of `dumpsArrSepL` on nil. -/
theorem dumpsArrSepL_nil : dumpsArrSepL [] = [']'] := by rw [dumpsArrSepL.eq_def]

/-- Unfolding equation of `dumpsArrSepL` on cons. -/
theorem dumpsArrSepL_cons (x : Json) (xs : List Json) :
    dumpsArrSepL (x :: xs) = ',' :: ' ' :: (dumpsL x ++ dumpsArrSepL xs) := by
  rw [dumpsArrSepL.eq_def]

/-- Unfolding equation of `dumpsObjL` on nil. -/
theorem dumpsObjL_nil : dumpsObjL [] = ['}'] := by rw [dumpsObjL.eq_def]

/-- Unfolding equation of `dumpsObjL` on cons. -/
theorem dumpsObjL_cons (k : String) (v : Json) (kvs : List (String × Json)) :
    dumpsObjL ((k, v) :: kvs)
      = '"' :: (escStrChars k.data ++ '"' :: ':' :: ' ' :: (dumpsL v ++ dumpsObjSepL kvs)) := by
  rw [dumpsObjL.eq_def]

/-- Unfolding equation of `dumpsObjSepL` on nil. -/
theorem dumpsObjSepL_nil : dumpsObjSepL [] = ['}'] := by rw [dumpsObjSepL.eq_def]

/-- Unfolding equation of `dumpsObjSepL` on cons. -/
theorem dumpsObjSepL_cons (k : String) (v : Json) (kvs : List (String × Json)) :
    dumpsObjSepL ((k, v) :: kvs)
      = ',' :: ' ' :: '"' :: (escStrChars k.data ++ '"' :: ':' :: ' '
          :: (dumpsL v ++ dumpsObjSepL kvs)) := by
  rw [dumpsObjSepL.eq_def]

/-- Unfolding equation of `wfJson` on a string. -/
theorem wfJson_str (s : String) : wfJson (.str s) = wfStr s := by rw [wfJson.eq_def]

/-- Unfolding equation of `wfJson` on a number. -/
theorem wfJson_num (n : Int) : wfJson (.num n) = true := by rw [wfJson.eq_def]

/-- Unfolding equation of `wfA` on nil. -/
theorem wfA_nil : wfA [] = true := by rw [wfA.eq_def]

/-- Unfolding equation of `wfO` on nil. -/
theorem wfO_nil : wfO [] = true := by rw [wfO.eq_def]

/-- Unfolding equation of `wfJson` on an array. -/
theorem wfJson_arr (xs : List Json) : wfJson (.arr xs) = wfA xs := by rw [wfJson.eq_def]

/-- Unfolding equation of `wfJson` on an object. -/
theorem wfJson_obj (kvs : List (String × Json)) : wfJson (.obj kvs) = wfO kvs := by
  rw [wfJson.eq_def]

/-- Unfolding equation of `wfA` on cons. -/
theorem wfA_cons (x : Json) (xs : List Json) : wfA (x :: xs) = (wfJson x && wfA xs) := by
  rw [wfA.eq_def]

/-- Unfolding equation of `wfO` on cons. -/
theorem wfO_cons (k : String) (v : Json) (kvs : List (String × Json)) :
    wfO ((k, v) :: kvs) = (wfStr k && wfJson v && wfO kvs) := by
  rw [wfO.eq_def]

/-- Every JSON value has at least one node. -/
theorem jsize_pos (v : Json) : 1 ≤ jsize v := by
  cases v <;> rw [jsize.eq_def] <;> simp

/-- Unfolding equation of `dumpsL` on null. -/
theorem dumpsL_null : dumpsL .null = ['n', 'u', 'l', 'l'] := by rw [dumpsL.eq_def]

/-- Unfolding equation of `dumpsL` on true. -/
theorem dumpsL_true : dumpsL (.bool true) = ['t', 'r', 'u', 'e'] := by rw [dumpsL.eq_def]; rfl

/-- Unfolding equation of `dumpsL` on false. -/
theorem dumpsL_false : dumpsL (.bool false) = ['f', 'a', 'l', 's', 'e'] := by rw [dumpsL.eq_def]; rfl

/-- Parser dispatch: `null` literal. -/
theorem pVal_null (f : Nat) (r : List Char) :
    pVal (f + 1) ('n' :: 'u' :: 'l' :: 'l' :: r) = some (.null, r) := by
  simp only [pVal]
  simp +decide

/-- Parser dispatch: `true` literal. -/
theorem pVal_true (f : Nat) (r : List Char) :
    pVal (f + 1) ('t' :: 'r' :: 'u' :: 'e' :: r) = some (.bool true, r) := by
  simp only [pVal]
  simp +decide

/-- Parser dispatch: `false` literal. -/
theorem pVal_false (f : Nat) (r : List Char) :
    pVal (f + 1) ('f' :: 'a' :: 'l' :: 's' :: 'e' :: r) = some (.bool false, r) := by
  simp only [pVal]
  simp +decide

/-- Parser dispatch: string literal. -/
theorem pVal_quote (f : Nat) (r : List Char) :
    pVal (f + 1) ('"' :: r)
      = (pStrChars r).map fun p => (.str (String.mk p.1), p.2) := by
  simp only [pVal]
  simp +decide

/-- Parser dispatch: array opener. -/
theorem pVal_lbracket (f : Nat) (r : List Char) :
    pVal (f + 1) ('[' :: r)
      = (if r.head? = some ']' then some (.arr [], r.tail)
         else do
           let p ← pVal f r
           let q ← pArrTail f p.2
           some (.arr (p.1 :: q.1), q.2)) := by
  simp only [pVal]
  simp +decide

/-- Parser dispatch: empty object. -/
theorem pVal_lbrace_empty (f : Nat) (r : List Char) :
    pVal (f + 1) ('{' :: '}' :: r) = some (.obj [], r) := by
  simp only [pVal]
  simp +decide

/-- Parser dispatch: object with a first key. -/
theorem pVal_lbrace_key (f : Nat) (r : List Char) :
    pVal (f + 1) ('{' :: '"' :: r)
      = (do
          let kp ← pStrChars r
          let r3 ← pColon kp.2
          let vp ← pVal f r3
          let op ← pObjTail f vp.2
          some (.obj ((String.mk kp.1, vp.1) :: op.1), op.2)) := by
  simp only [pVal]
  simp +decide

/-- Parser dispatch: negative number. -/
theorem pVal_minus (f : Nat) (r : List Char) :
    pVal (f + 1) ('-' :: r)
      = (pNat r).map fun p => (.num (-(p.1 : Int)), p.2) := by
  simp only [pVal]
  simp +decide

/-- Parser dispatch: a leading digit routes to the number parser. -/
theorem pVal_digit (f : Nat) (c : Char) (r : List Char) (hd : isDigitC c = true) :
    pVal (f + 1) (c :: r)
      = (pNat (c :: r)).map fun p => (.num (p.1 : Int), p.2) := by
  obtain ⟨hb1, hb2⟩ := isDigitC_toNat c hd
  have h1 : ¬c = 'n' := fun h => by subst h; revert hb2; decide
  have h2 : ¬c = 't' := fun h => by subst h; revert hb2; decide
  have h3 : ¬c = 'f' := fun h => by subst h; revert hb2; decide
  have h4 : ¬c = '"' := fun h => by subst h; revert hb1; decide
  have h5 : ¬c = '[' := fun h => by subst h; revert hb2; decide
  have h6 : ¬c = '{' := fun h => by subst h; revert hb2; decide
  have h7 : ¬c = '-' := fun h => by subst h; revert hb1; decide
  simp only [pVal]
  simp only [if_neg h1, if_neg h2, if_neg h3, if_neg h4, if_neg h5, if_neg h6, if_neg h7, hd,
    if_true]

/-- Parser dispatch: array tail, closing bracket. -/
theorem pArrTail_rbracket (f : Nat) (r : List Char) :
    pArrTail (f + 1) (']' :: r) = some ([], r) := by
  simp only [pArrTail]

/-- Parser dispatch: array tail, separator then next element. -/
theorem pArrTail_comma (f : Nat) (r : List Char) :
    pArrTail (f + 1) (',' :: r)
      = (do
          let p ← pVal f (skipOneSpace r)
          let q ← pArrTail f p.2
          some (p.1 :: q.1, q.2)) := by
  simp only [pArrTail]

/-- Parser dispatch: object tail, closing brace. -/
theorem pObjTail_rbrace (f : Nat) (r : List Char) :
    pObjTail (f + 1) ('}' :: r) = some ([], r) := by
  simp only [pObjTail]

/-- Parser dispatch: object tail, separator then next member. -/
theorem pObjTail_comma_key (f : Nat) (r : List Char) :
    pObjTail (f + 1) (',' :: ' ' :: '"' :: r)
      = (do
          let kp ← pStrChars r
          let r4 ← pColon kp.2
          let vp ← pVal f r4
          let op ← pObjTail f vp.2
          some ((String.mk kp.1, vp.1) :: op.1, op.2)) := by
  simp only [pObjTail, skipOneSpace]

/-- The decimal printout is nonempty. -/
theorem natCharsL_ne_nil (n : Nat) : natCharsL n ≠ [] := by
  obtain ⟨c, cs, hc, _⟩ := natCharsL_head n
  rw [hc]
  simp

/-- Node counts are bounded by the length of the serialized form: the fuel
`length + 2` that `parse` allots always suffices. -/
theorem jsize_le_dumpsL : ∀ N : Nat,
    (∀ v, jsize v ≤ N → jsize v ≤ (dumpsL v).length)
    ∧ (∀ xs, jsizeA xs ≤ N → jsizeA xs ≤ (dumpsArrL xs).length)
    ∧ (∀ xs, jsizeA xs ≤ N → jsizeA xs + 1 ≤ (dumpsArrSepL xs).length)
    ∧ (∀ kvs, jsizeO kvs ≤ N → jsizeO kvs ≤ (dumpsObjL kvs).length)
    ∧ (∀ kvs, jsizeO kvs ≤ N → jsizeO kvs + 1 ≤ (dumpsObjSepL kvs).length) := by
  intro N
  induction N with
  | zero =>
    refine ⟨fun v hv => ?_, fun xs hxs => ?_, fun xs hxs => ?_, fun kvs hk => ?_, fun kvs hk => ?_⟩
    · exact absurd hv (by have := jsize_pos v; omega)
    · cases xs with
      | nil => rw [dumpsArrL_nil, jsizeA_nil]; simp
      | cons x xs => rw [jsizeA_cons] at hxs; have := jsize_pos x; omega
    · cases xs with
      | nil => rw [dumpsArrSepL_nil, jsizeA_nil]; simp
      | cons x xs => rw [jsizeA_cons] at hxs; have := jsize_pos x; omega
    · cases kvs with
      | nil => rw [dumpsObjL_nil, jsizeO_nil]; simp
      | cons kv kvs =>
        obtain ⟨k, v⟩ := kv
        rw [jsizeO_cons] at hk
        have := jsize_pos v
        omega
    · cases kvs with
      | nil => rw [dumpsObjSepL_nil, jsizeO_nil]; simp
      | cons kv kvs =>
        obtain ⟨k, v⟩ := kv
        rw [jsizeO_cons] at hk
        have := jsize_pos v
        omega
  | succ N ih =>
    obtain ⟨ihA, ihB, ihC, ihD, ihE⟩ := ih
    refine ⟨fun v hv => ?_, fun xs hxs => ?_, fun xs hxs => ?_, fun kvs hk => ?_, fun kvs hk => ?_⟩
    · cases v with
      | null => rw [jsize.eq_def, dumpsL.eq_def]; simp
      | bool b => cases b <;> rw [jsize.eq_def, dumpsL.eq_def] <;> simp
      | num n =>
        rw [jsize.eq_def, dumpsL_num]
        show 1 ≤ (intCharsL n).length
        unfold intCharsL
        split
        · simp
        · cases h : natCharsL n.toNat with
          | nil => exact absurd h (natCharsL_ne_nil n.toNat)
          | cons c cs => simp [h]
      | str s => rw [jsize.eq_def, dumpsL_str]; simp
      | arr xs =>
        rw [jsize_arr] at hv
        rw [jsize_arr, dumpsL_arr]
        have := ihB xs (by omega)
        simp only [List.length_cons]
        omega
      | obj kvs =>
        rw [jsize_obj] at hv
        rw [jsize_obj, dumpsL_obj]
        have := ihD kvs (by omega)
        simp only [List.length_cons]
        omega
    · cases xs with
      | nil => rw [dumpsArrL_nil, jsizeA_nil]; simp
      | cons x xs =>
        rw [jsizeA_cons] at hxs
        rw [jsizeA_cons, dumpsArrL_cons]
        have h1 := ihA x (by have := jsize_pos x; omega)
        have h2 := ihC xs (by have := jsize_pos x; omega)
        simp only [List.length_append]
        omega
    · cases xs with
      | nil => rw [dumpsArrSepL_nil, jsizeA_nil]; simp
      | cons x xs =>
        rw [jsizeA_cons] at hxs
        rw [jsizeA_cons, dumpsArrSepL_cons]
        have h1 := ihA x (by have := jsize_pos x; omega)
        have h2 := ihC xs (by have := jsize_pos x; omega)
        simp only [List.length_cons, List.length_append]
        omega
    · cases kvs with
      | nil => rw [dumpsObjL_nil, jsizeO_nil]; simp
      | cons kv kvs =>
        obtain ⟨k, v⟩ := kv
        rw [jsizeO_cons] at hk
        rw [jsizeO_cons, dumpsObjL_cons]
        have h1 := ihA v (by have := jsize_pos v; omega)
        have h2 := ihE kvs (by have := jsize_pos v; omega)
        simp only [List.length_cons, List.length_append]
        omega
    · cases kvs with
      | nil => rw [dumpsObjSepL_nil, jsizeO_nil]; simp
      | cons kv kvs =>
        obtain ⟨k, v⟩ := kv
        rw [jsizeO_cons] at hk
        rw [jsizeO_cons, dumpsObjSepL_cons]
        have h1 := ihA v (by have := jsize_pos v; omega)
        have h2 := ihE kvs (by have := jsize_pos v; omega)
        simp only [List.length_cons, List.length_append]
        omega

/-- Unpacking of the BMP well-formedness of a string. -/
theorem wfStr_mem (s : String) (h : wfStr s = true) : ∀ c ∈ s.data, c.toNat < 65536 := by
  simpa [wfStr, List.all_eq_true] using h

/-- A serialized array tail starts with `,` or `]`, never with a digit. -/
theorem head_arrSep_not_digit (xs : List Json) (rest : List Char) :
    ∀ c, (dumpsArrSepL xs ++ rest).head? = some c → isDigitC c = false := by
  intro c hc
  cases xs with
  | nil =>
    rw [dumpsArrSepL_nil] at hc
    simp at hc
    subst hc
    decide
  | cons x xs2 =>
    rw [dumpsArrSepL_cons] at hc
    simp at hc
    subst hc
    decide

/-- A serialized object tail starts with `,` or `}`, never with a digit. -/
theorem head_objSep_not_digit (kvs : List (String × Json)) (rest : List Char) :
    ∀ c, (dumpsObjSepL kvs ++ rest).head? = some c → isDigitC c = false := by
  intro c hc
  cases kvs with
  | nil =>
    rw [dumpsObjSepL_nil] at hc
    simp at hc
    subst hc
    decide
  | cons kv kvs2 =>
    obtain ⟨k, v⟩ := kv
    rw [dumpsObjSepL_cons] at hc
    simp at hc
    subst hc
    decide

/-- The serializer/parser round trip, by induction on the parser fuel: with
enough fuel, parsing the serialized form of a well-formed value consumes
exactly it and returns the value, for values, array tails and object
tails simultaneously. -/
theorem roundtrip : ∀ F : Nat,
    (∀ v rest, wfJson v = true → jsize v < F →
        (∀ c, rest.head? = some c → isDigitC c = false) →
        pVal F (dumpsL v ++ rest) = some (v, rest))
    ∧ (∀ xs rest, wfA xs = true → jsizeA xs < F →
        pArrTail F (dumpsArrSepL xs ++ rest) = some (xs, rest))
    ∧ (∀ kvs rest, wfO kvs = true → jsizeO kvs < F →
        pObjTail F (dumpsObjSepL kvs ++ rest) = some (kvs, rest)) := by
  intro F
  induction F with
  | zero =>
    exact ⟨fun v rest _ h _ => absurd h (by omega), fun xs rest _ h => absurd h (by omega),
      fun kvs rest _ h => absurd h (by omega)⟩
  | succ f ih =>
    obtain ⟨ihP, ihQ, ihR⟩ := ih
    refine ⟨fun v rest hwf hsz hrest => ?_, fun xs rest hwf hsz => ?_,
      fun kvs rest hwf hsz => ?_⟩
    · cases v with
      | null =>
        rw [dumpsL_null]
        simp only [List.cons_append, List.nil_append]
        exact pVal_null f rest
      | bool b =>
        cases b with
        | true =>
          rw [dumpsL_true]
          simp only [List.cons_append, List.nil_append]
          exact pVal_true f rest
        | false =>
          rw [dumpsL_false]
          simp only [List.cons_append, List.nil_append]
          exact pVal_false f rest
      | num n =>
        rw [dumpsL_num]
        unfold intCharsL
        split
        · rename_i hneg
          simp only [List.cons_append]
          rw [pVal_minus, pNat_natCharsL _ rest hrest]
          have he : (((-n).toNat : Nat) : Int) = -n := Int.toNat_of_nonneg (by omega)
          simp [he]
        · rename_i hneg
          obtain ⟨c, cs, hc, hd⟩ := natCharsL_head n.toNat
          rw [hc]
          simp only [List.cons_append]
          rw [pVal_digit f c _ hd]
          rw [show c :: (cs ++ rest) = natCharsL n.toNat ++ rest by rw [hc]; rfl]
          rw [pNat_natCharsL _ rest hrest]
          have he : ((n.toNat : Nat) : Int) = n := Int.toNat_of_nonneg (by omega)
          simp [he]
      | str s =>
        rw [dumpsL_str]
        simp only [List.cons_append]
        rw [pVal_quote]
        rw [wfJson_str] at hwf
        rw [show (escStrChars s.data ++ ['"']) ++ rest = escStrChars s.data ++ '"' :: rest by
          rw [List.append_assoc]; rfl]
        rw [pStrChars_escape s.data rest (wfStr_mem s hwf)]
        simp [mk_data]
      | arr xs =>
        rw [dumpsL_arr]
        rw [wfJson_arr] at hwf
        rw [jsize_arr] at hsz
        simp only [List.cons_append]
        rw [pVal_lbracket]
        cases xs with
        | nil =>
          rw [dumpsArrL_nil]
          simp
        | cons x xs2 =>
          rw [dumpsArrL_cons]
          rw [wfA_cons] at hwf
          rw [jsizeA_cons] at hsz
          obtain ⟨hw1, hw2⟩ := Bool.and_eq_true_iff.mp hwf
          obtain ⟨c, cs, hcx, hcne⟩ := dumpsL_head_ne x
          have hhead : ¬((dumpsL x ++ dumpsArrSepL xs2) ++ rest).head? = some ']' := by
            rw [hcx]
            simp [hcne]
          rw [if_neg hhead, List.append_assoc]
          rw [ihP x _ hw1 (by omega) (head_arrSep_not_digit xs2 rest)]
          simp only [Option.bind_eq_bind, Option.some_bind]
          rw [ihQ xs2 rest hw2 (by omega)]
          rfl
      | obj kvs =>
        rw [dumpsL_obj]
        rw [wfJson_obj] at hwf
        rw [jsize_obj] at hsz
        cases kvs with
        | nil =>
          rw [dumpsObjL_nil]
          simp only [List.cons_append, List.nil_append]
          exact pVal_lbrace_empty f rest
        | cons kv kvs2 =>
          obtain ⟨k, v⟩ := kv
          rw [dumpsObjL_cons]
          rw [wfO_cons] at hwf
          rw [jsizeO_cons] at hsz
          obtain ⟨hwk, hw2⟩ := Bool.and_eq_true_iff.mp hwf
          obtain ⟨hwks, hwv⟩ := Bool.and_eq_true_iff.mp hwk
          simp only [List.cons_append, List.append_assoc]
          rw [pVal_lbrace_key]
          rw [pStrChars_escape k.data _ (wfStr_mem k hwks)]
          simp only [Option.bind_eq_bind, Option.some_bind]
          rw [show pColon (':' :: ' ' :: (dumpsL v ++ (dumpsObjSepL kvs2 ++ rest)))
              = some (dumpsL v ++ (dumpsObjSepL kvs2 ++ rest)) from rfl]
          simp only [Option.some_bind]
          rw [ihP v _ hwv (by omega) (head_objSep_not_digit kvs2 rest)]
          simp only [Option.some_bind]
          rw [ihR kvs2 rest hw2 (by omega)]
          simp [mk_data]
    · cases xs with
      | nil =>
        rw [dumpsArrSepL_nil]
        simp only [List.cons_append, List.nil_append]
        exact pArrTail_rbracket f rest
      | cons x xs2 =>
        rw [dumpsArrSepL_cons]
        rw [wfA_cons] at hwf
        rw [jsizeA_cons] at hsz
        obtain ⟨hw1, hw2⟩ := Bool.and_eq_true_iff.mp hwf
        simp only [List.cons_append, List.append_assoc]
        rw [pArrTail_comma]
        rw [show skipOneSpace (' ' :: (dumpsL x ++ (dumpsArrSepL xs2 ++ rest)))
            = dumpsL x ++ (dumpsArrSepL xs2 ++ rest) from rfl]
        rw [ihP x _ hw1 (by omega) (head_arrSep_not_digit xs2 rest)]
        simp only [Option.bind_eq_bind, Option.some_bind]
        rw [ihQ xs2 rest hw2 (by omega)]
        rfl
    · cases kvs with
      | nil =>
        rw [dumpsObjSepL_nil]
        simp only [List.cons_append, List.nil_append]
        exact pObjTail_rbrace f rest
      | cons kv kvs2 =>
        obtain ⟨k, v⟩ := kv
        rw [dumpsObjSepL_cons]
        rw [wfO_cons] at hwf
        rw [jsizeO_cons] at hsz
        obtain ⟨hwk, hw2⟩ := Bool.and_eq_true_iff.mp hwf
        obtain ⟨hwks, hwv⟩ := Bool.and_eq_true_iff.mp hwk
        simp only [List.cons_append, List.append_assoc]
        rw [pObjTail_comma_key]
        rw [pStrChars_escape k.data _ (wfStr_mem k hwks)]
        simp only [Option.bind_eq_bind, Option.some_bind]
        rw [show pColon (':' :: ' ' :: (dumpsL v ++ (dumpsObjSepL kvs2 ++ rest)))
            = some (dumpsL v ++ (dumpsObjSepL kvs2 ++ rest)) from rfl]
        simp only [Option.some_bind]
        rw [ihP v _ hwv (by omega) (head_objSep_not_digit kvs2 rest)]
        simp only [Option.some_bind]
        rw [ihR kvs2 rest hw2 (by omega)]
        simp [mk_data]

/-- Parsing the serialized form of a well-formed JSON value returns exactly
that value: `json.loads` inverts `json.dumps` in the model. -/
theorem parse_dumps (v : Json) (h : wfJson v = true) : parse (dumps v) = some v := by
  have hsz : jsize v < (dumpsL v).length + 2 := by
    have := (jsize_le_dumpsL (jsize v)).1 v (Nat.le_refl _)
    omega
  have hp := (roundtrip ((dumpsL v).length + 2)).1 v [] h hsz (by intro c hc; simp at hc)
  rw [List.append_nil] at hp
  unfold parse dumps
  rw [show (String.mk (dumpsL v)).data = dumpsL v from rfl,
    show (String.mk (dumpsL v)).length = (dumpsL v).length from rfl, hp]

/-- Appending row lists multiplies under the sequential traversal. -/
theorem rowsTraverse_append (l1 l2 : List ProductRow) (a b : List ReadProduct)
    (h1 : rowsTraverse l1 = some a) (h2 : rowsTraverse l2 = some b) :
    rowsTraverse (l1 ++ l2) = some (a ++ b) := by
  induction l1 generalizing a with
  | nil =>
    simp only [rowsTraverse] at h1
    injection h1 with h1
    subst h1
    simpa using h2
  | cons r rs ih =>
    simp only [rowsTraverse] at h1 ⊢
    cases hp : parseRow r with
    | none => rw [hp] at h1; simp at h1
    | some p =>
      rw [hp] at h1
      simp only [Option.bind_eq_bind, Option.some_bind] at h1 ⊢
      cases hr : rowsTraverse rs with
      | none => rw [hr] at h1; simp at h1
      | some ps =>
        rw [hr] at h1
        simp only [Option.bind_eq_bind, Option.some_bind] at h1
        injection h1 with h1
        subst h1
        rw [List.append_eq, ih ps hr]
        rfl

/-- A successful traversal means every row parses. -/
theorem rowsTraverse_isSome (L : List ProductRow) (l : List ReadProduct)
    (h : rowsTraverse L = some l) : ∀ r ∈ L, (parseRow r).isSome := by
  induction L generalizing l with
  | nil => intro r hr; simp at hr
  | cons x xs ih =>
    intro r hr
    simp only [rowsTraverse] at h
    cases hp : parseRow x with
    | none => rw [hp] at h; simp at h
    | some p =>
      rw [hp] at h
      simp only [Option.bind_eq_bind, Option.some_bind] at h
      cases hx : rowsTraverse xs with
      | none => rw [hx] at h; simp at h
      | some ps =>
        rcases List.mem_cons.mp hr with hr | hr
        · subst hr; simp [hp]
        · exact ih ps hx r hr

/-- Rows that all parse traverse successfully. -/
theorem rowsTraverse_of_all (L : List ProductRow)
    (h : ∀ r ∈ L, (parseRow r).isSome) : ∃ l, rowsTraverse L = some l := by
  induction L with
  | nil => exact ⟨[], rfl⟩
  | cons x xs ih =>
    obtain ⟨p, hp⟩ := Option.isSome_iff_exists.mp (h x (List.mem_cons_self x xs))
    obtain ⟨l, hl⟩ := ih fun r hr => h r (List.mem_cons_of_mem x hr)
    exact ⟨p :: l, by simp [rowsTraverse, hp, hl]⟩

/-- The stored row of a product parses back to the product's own structured
values. -/
theorem parseRow_rowOf (p : ProcessedProduct)
    (hwv : wfJson p.variants = true) (hwi : wfJson p.images = true)
    (hwo : wfJson p.options = true) :
    parseRow (rowOf p) = some (readOf p) := by
  unfold parseRow rowOf
  simp only [parse_dumps p.variants hwv, parse_dumps p.images hwi, parse_dumps p.options hwo,
    Option.some_bind]
  rfl

/-- C10: storing a product whose `variants`, `images` and `options` are
(BMP-well-formed) JSON values and reading the shop's products back returns,
appended to the re-parsed prior rows, a record for that product whose
structured fields equal the values passed to `store_product` — the
`json.dumps`/`json.loads` round trip is the identity at the read
interface. -/
theorem store_then_get_roundtrip (db : List ProductRow) (shop : String)
    (p : ProcessedProduct) (l : List ReadProduct)
    (hshop : p.shop = shop)
    (hwv : wfJson p.variants = true) (hwi : wfJson p.images = true)
    (hwo : wfJson p.options = true)
    (hget : get_shop_products db shop = some l) :
    ∃ (l2 : List ReadProduct) (r : ReadProduct),
      get_shop_products (store_product db shop p) shop = some (l2 ++ [r])
      ∧ r.shop = p.shop ∧ r.product_id = pyStrOfOptInt p.product_id ∧ r.title = p.title
      ∧ r.variants = p.variants ∧ r.images = p.images ∧ r.options = p.options := by
  have hrow : (rowOf p).shop = p.shop := rfl
  have hparse := parseRow_rowOf p hwv hwi hwo
  unfold get_shop_products at hget
  have hsome : ∀ r ∈ db.filter (fun r => r.shop == shop), (parseRow r).isSome :=
    rowsTraverse_isSome _ l hget
  have hsub : ∀ r ∈ (db.filter fun r =>
      !(r.shop == (rowOf p).shop && r.product_id == (rowOf p).product_id)).filter
        (fun r => r.shop == shop), (parseRow r).isSome := by
    intro r hr
    obtain ⟨hr1, hr2⟩ := List.mem_filter.mp hr
    exact hsome r (List.mem_filter.mpr ⟨(List.mem_filter.mp hr1).1, hr2⟩)
  obtain ⟨la, hla⟩ := rowsTraverse_of_all _ hsub
  have hmain : get_shop_products (store_product db shop p) shop
      = some (la ++ [readOf p]) := by
    unfold get_shop_products store_product
    rw [List.filter_append]
    have hone : [rowOf p].filter (fun r => r.shop == shop) = [rowOf p] := by
      simp [hrow, hshop]
    rw [hone]
    exact rowsTraverse_append _ _ la _ hla (by simp [rowsTraverse, hparse])
  exact ⟨la, readOf p, hmain, rfl, rfl, rfl, rfl, rfl, rfl⟩

/-- The structured fields of the concrete product `prodB` are
BMP-well-formed JSON values. -/
theorem prodB_wf : wfJson prodB.variants = true ∧ wfJson prodB.images = true
    ∧ wfJson prodB.options = true := by
  refine ⟨?_, ?_, ?_⟩
  · rw [show prodB.variants
        = Json.arr [Json.obj [("id", Json.num 11), ("price", Json.str "10.00")]] from rfl]
    rw [wfJson_arr, wfA_cons, wfJson_obj, wfO_cons, wfO_cons, wfO_nil, wfA_nil, wfJson_num,
      wfJson_str]
    simp [wfStr]
  · rw [show prodB.images = Json.arr [] from rfl, wfJson_arr, wfA_nil]
  · rw [show prodB.options = Json.arr [Json.obj [("name", Json.str "Size")]] from rfl]
    rw [wfJson_arr, wfA_cons, wfJson_obj, wfO_cons, wfO_nil, wfA_nil, wfJson_str]
    simp [wfStr]

/-- Witness for C10: storing the concrete product `prodB` into an empty
table and reading the shop back yields one record whose `variants`,
`images` and `options` equal the structured values that were stored. -/
theorem store_then_get_roundtrip_witness :
    ∃ (l2 : List ReadProduct) (r : ReadProduct),
      get_shop_products (store_product [] "s1.myshopify.com" prodB) "s1.myshopify.com"
        = some (l2 ++ [r])
      ∧ r.shop = prodB.shop ∧ r.product_id = pyStrOfOptInt prodB.product_id
      ∧ r.title = prodB.title
      ∧ r.variants = prodB.variants ∧ r.images = prodB.images ∧ r.options = prodB.options :=
  store_then_get_roundtrip [] "s1.myshopify.com" prodB [] rfl
    prodB_wf.1 prodB_wf.2.1 prodB_wf.2.2 rfl

end Vroom
